import Mathlib

/-!
# darktable `src/libs/backgroundjobs.c`: the background-job panel

A shallow embedding of the job registry and of the four proxy functions
`_lib_backgroundjobs_create`, `_lib_backgroundjobs_destroy`,
`_lib_backgroundjobs_set_cancellable` and `_lib_backgroundjobs_progress`.

The C code works on global state (the module data `d`, `darktable.control`, the
GLib heap, the GTK widget tree, the GDK lock).  The embedding passes that state
explicitly as a `World`: the program state `State` plus a `trace` of the calls
made into the lock, the allocator, the hash table and the mutating GTK
functions, oldest first.

Conventions:
* a pointer to a `dt_bgjob_t` is the record value together with its address
  (`addr`); the fields of a record are never written after `create`;
* a job's row (the event box `j->widget` with its label, optional progress bar
  and cancel buttons) is one `Row`, identified by the identity of its event
  box; `j->progressbar` and `j->label` are reached through that row;
* the job box holds the only reference to a row, so a row taken out of the job
  box is destroyed; the guard `GTK_IS_WIDGET` at lines 167 and 221 fails on it;
* lines 196-201 and line 231 reach through `j->widget` and `j->progressbar`
  without such a guard; when the row is destroyed the behaviour of the C
  program is undefined, which the state records in the flag `undefined`;
* rows are shown as soon as they are in the job box (`gtk_widget_show_all`),
  only the visibility of the job box itself is state;
* the toolkit is GTK+ 2 (`gtk_vbox_new`, `GStaticMutex`): its progress bar
  keeps the fraction it shows when it is handed a value outside `[0, 1]`;
* `guint` is 32 bits wide, addresses are natural numbers of any width;
* a `double` is a `GDouble`: a rational number, an infinity or NaN; the code
  only compares the fraction with `1.0` and hands it on, it does no arithmetic
  on it;
* thread identities, cancel targets (`dt_job_t *`) and widget identities are
  natural numbers.
-/

namespace Backgroundjobs

/-! ## Data model -/

/-- The C struct `dt_bgjob_t` (lines 36-39), seen through a pointer: `addr` is
the address `g_malloc` returned for it, `type` the `uint32_t` field, `widget`
the identity of the event box of the job's row. -/
structure dt_bgjob_t where
  addr : Nat
  type : Nat
  widget : Nat
  deriving DecidableEq, Repr

/-- One row of the job box: the event box `widget`, the text of its label, the
fraction of its progress bar (`none` when the row has no bar) and the jobs its
cancel buttons are connected to, in packing order. -/
structure Row where
  widget : Nat
  label : String
  progressbar : Option ℚ
  buttons : List Nat
  deriving DecidableEq, Repr

/-- A C `double`: a finite value, which is a rational number, one of the two
infinities, or NaN. -/
inductive GDouble where
  | finite (q : ℚ)
  | pos_inf
  | neg_inf
  | nan
  deriving DecidableEq, Repr

/-- The C comparison `x >= 1.0`; it is false for NaN. -/
def GDouble.ge_one : GDouble → Bool
  | GDouble.finite q => decide (q ≥ 1)
  | GDouble.pos_inf => true
  | GDouble.neg_inf => false
  | GDouble.nan => false

/-- The C comparison `x < 1.0`; it is false for NaN. -/
def GDouble.lt_one : GDouble → Bool
  | GDouble.finite q => decide (q < 1)
  | GDouble.pos_inf => false
  | GDouble.neg_inf => true
  | GDouble.nan => false

/-- The range check `percentage >= 0 && percentage <= 1.0` of GTK+ 2: the value,
when it passes. -/
def GDouble.in_range : GDouble → Option ℚ
  | GDouble.finite q => if 0 ≤ q ∧ q ≤ 1 then some q else none
  | _ => none

/-- Calls recorded in the trace of a `World`. -/
inductive Event where
  | gdk_threads_enter
  | gdk_threads_leave
  | g_malloc (addr : Nat)
  | g_free (addr : Nat)
  | g_hash_table_insert (key : Nat)
  | g_hash_table_lookup (key : Nat)
  | g_hash_table_remove (key : Nat)
  | gtk_box_pack_start (widget : Nat)
  | gtk_box_reorder_child (widget : Nat) (position : Nat)
  | gtk_container_remove (widget : Nat)
  | gtk_widget_show
  | gtk_widget_hide
  | gtk_progress_bar_set_fraction (widget : Nat) (fraction : GDouble)
  | button_pack_start (widget : Nat) (job : Nat)
  deriving DecidableEq, Repr

/-- The program state: `darktable.control->running`, `darktable.control->gui_thread`,
the module data `dt_lib_backgroundjobs_t` (the children of `d->jobbox`, whether
the job box is shown, and the table `d->jobs` as an association list from key to
record), the addresses of the `dt_bgjob_t` records that are allocated, the
identity the next new widget gets, and whether a call has reached through a
pointer to a destroyed widget, after which the C program is undefined. -/
structure State where
  running : Bool
  gui_thread : Nat
  jobbox : List Row
  jobbox_visible : Bool
  jobs : List (Nat × dt_bgjob_t)
  heap : List Nat
  next_widget : Nat
  undefined : Bool
  deriving DecidableEq, Repr

/-- The program state together with the trace of calls made so far. -/
structure World where
  st : State
  trace : List Event
  deriving DecidableEq, Repr

/-! ## The library functions the module calls -/

/-- Append one call to the trace. -/
def World.log (s : World) (e : Event) : World :=
  { s with trace := s.trace ++ [e] }

/-- Thread identities are compared by value. -/
def pthread_equal (a b : Nat) : Bool := a == b

def gdk_threads_enter (s : World) : World := s.log Event.gdk_threads_enter

def gdk_threads_leave (s : World) : World := s.log Event.gdk_threads_leave

/-- The call `g_malloc(sizeof(dt_bgjob_t))`; the address `addr` it returns is
chosen by the allocator. -/
def g_malloc (s : World) (addr : Nat) : World :=
  { s with st := { s.st with heap := addr :: s.st.heap } }.log (Event.g_malloc addr)

def g_free (s : World) (addr : Nat) : World :=
  { s with st := { s.st with heap := s.st.heap.filter (fun a => a != addr) } }.log
    (Event.g_free addr)

/-- GLib's `g_direct_hash` is `GPOINTER_TO_UINT`: the pointer converted to the
32-bit `guint`. -/
def g_direct_hash (p : Nat) : Nat := p % 4294967296

/-- The conversion of an `int` to `uint32_t` in `j->type = type`. -/
def to_uint32 (i : Int) : Nat := (i % 4294967296).toNat

/-- A table made by `g_hash_table_new(NULL,NULL)` compares keys directly; the
entry of `key`, if there is one. -/
def table_lookup (t : List (Nat × dt_bgjob_t)) (key : Nat) : Option dt_bgjob_t :=
  (t.find? (fun e => e.1 == key)).map (fun e => e.2)

/-- Inserting under a key that is present replaces the entry of that key. -/
def g_hash_table_insert (s : World) (key : Nat) (j : dt_bgjob_t) : World :=
  { s with st := { s.st with jobs := (key, j) :: s.st.jobs.filter (fun e => e.1 != key) } }.log
    (Event.g_hash_table_insert key)

def g_hash_table_lookup (s : World) (key : Nat) : Option dt_bgjob_t × World :=
  (table_lookup s.st.jobs key, s.log (Event.g_hash_table_lookup key))

def g_hash_table_remove (s : World) (key : Nat) : World :=
  { s with st := { s.st with jobs := s.st.jobs.filter (fun e => e.1 != key) } }.log
    (Event.g_hash_table_remove key)

/-- A new event box: a widget identity that no earlier widget has. -/
def gtk_event_box_new (s : World) : Nat × World :=
  (s.st.next_widget, { s with st := { s.st with next_widget := s.st.next_widget + 1 } })

/-- The type check on `j->widget`.  The job box holds the only reference to a
row, so a row removed from the job box is destroyed and the check fails on it. -/
def GTK_IS_WIDGET (s : World) (w : Nat) : Bool :=
  s.st.jobbox.any (fun r => r.widget == w)

def gtk_container_get_children (s : World) : List Row := s.st.jobbox

/-- The call `gtk_container_remove(d->jobbox, w)`. -/
def gtk_container_remove (s : World) (w : Nat) : World :=
  { s with st := { s.st with jobbox := s.st.jobbox.filter (fun r => r.widget != w) } }.log
    (Event.gtk_container_remove w)

/-- The call `gtk_widget_show(d->jobbox)`. -/
def gtk_widget_show (s : World) : World :=
  { s with st := { s.st with jobbox_visible := true } }.log Event.gtk_widget_show

/-- The call `gtk_widget_hide(d->jobbox)`. -/
def gtk_widget_hide (s : World) : World :=
  { s with st := { s.st with jobbox_visible := false } }.log Event.gtk_widget_hide

/-- The call `gtk_box_pack_start(d->jobbox, row)`: the row becomes the last child. -/
def gtk_box_pack_start (s : World) (r : Row) : World :=
  { s with st := { s.st with jobbox := s.st.jobbox ++ [r] } }.log
    (Event.gtk_box_pack_start r.widget)

/-- The list of children after `gtk_box_reorder_child`: the child `w` is taken
out of the list and put back before the child then at `position`, or at the end
when there is none; nothing happens when `w` is not a child. -/
def reorder_child (children : List Row) (w : Nat) (position : Nat) : List Row :=
  match children.find? (fun r => r.widget == w) with
  | none => children
  | some r =>
    let rest := children.eraseP (fun r => r.widget == w)
    rest.take position ++ [r] ++ rest.drop position

/-- The call `gtk_box_reorder_child(d->jobbox, w, position)`. -/
def gtk_box_reorder_child (s : World) (w : Nat) (position : Nat) : World :=
  { s with st := { s.st with jobbox := reorder_child s.st.jobbox w position } }.log
    (Event.gtk_box_reorder_child w position)

/-- The call `gtk_progress_bar_set_fraction(j->progressbar, x)` on the bar of
the row `w` (line 231).  GTK+ 2 passes the value to `gtk_progress_set_percentage`,
which returns without a change unless `x >= 0 && x <= 1.0`; otherwise the bar
shows `x`.  When no row of the job box has the event box `w`, the bar is
destroyed: nothing is set and the world becomes undefined.  (The module makes
the call only for a record with `type == 0`, whose row was built with a bar.) -/
def gtk_progress_bar_set_fraction (s : World) (w : Nat) (x : GDouble) : World :=
  { s with st := { s.st with
      jobbox :=
        match x.in_range with
        | some q => s.st.jobbox.map (fun (r : Row) =>
            if r.widget == w then { r with progressbar := r.progressbar.map (fun _ => q) }
            else r)
        | none => s.st.jobbox,
      undefined := s.st.undefined || !GTK_IS_WIDGET s w } }.log
    (Event.gtk_progress_bar_set_fraction w x)

/-- Lines 197-202: a new cancel button, connected to `job`, is packed at the end
of the hbox of the row `w`.  The code reaches the hbox through `j->widget`
without a type check.  When no row of the job box has the event box `w`, the
widget is destroyed: nothing is packed and the world becomes undefined. -/
def button_pack_start (s : World) (w : Nat) (job : Nat) : World :=
  { s with st := { s.st with
      jobbox := s.st.jobbox.map (fun (r : Row) =>
        if r.widget == w then { r with buttons := r.buttons ++ [job] } else r),
      undefined := s.st.undefined || !GTK_IS_WIDGET s w } }.log
    (Event.button_pack_start w job)

/-! ## The module -/

/-- Lines 79-99: an empty table and an empty job box that is not shown.  The
run-state and the GUI thread are those of `darktable.control` at that time. -/
def gui_init (running : Bool) (gui_thread : Nat) : World :=
  { st := { running := running, gui_thread := gui_thread, jobbox := [], jobbox_visible := false,
            jobs := [], heap := [], next_widget := 0, undefined := false },
    trace := [] }

/-- Lines 110-154.  `self_thread` is `pthread_self()`, `addr` the address the
allocator gives the new record.  Returns the key and the new world. -/
def _lib_backgroundjobs_create (s : World) (self_thread : Nat) (type : Int) (message : String)
    (addr : Nat) : Nat × World :=
  let needlock := !pthread_equal self_thread s.st.gui_thread
  let s := if needlock then gdk_threads_enter s else s
  let s := g_malloc s addr
  let (w, s) := gtk_event_box_new s
  let j : dt_bgjob_t := { addr := addr, type := to_uint32 type, widget := w }
  let key := g_direct_hash addr
  let s := g_hash_table_insert s key j
  let row : Row :=
    { widget := w, label := message, progressbar := if type == 0 then some 0 else none,
      buttons := [] }
  let s := gtk_box_pack_start s row
  let s := gtk_box_reorder_child s w 1
  let s := gtk_widget_show s
  let s := if needlock then gdk_threads_leave s else s
  (key, s)

/-- Lines 156-178. -/
def _lib_backgroundjobs_destroy (s : World) (self_thread : Nat) (key : Nat) : World :=
  let needlock := !pthread_equal self_thread s.st.gui_thread
  let s := if needlock then gdk_threads_enter s else s
  let (j, s) := g_hash_table_lookup s key
  let s :=
    match j with
    | some j =>
      let s := g_hash_table_remove s key
      let s := if GTK_IS_WIDGET s j.widget then gtk_container_remove s j.widget else s
      let s := if (gtk_container_get_children s).length == 0 then gtk_widget_hide s else s
      g_free s j.addr
    | none => s
  if needlock then gdk_threads_leave s else s

/-- Lines 186-206. -/
def _lib_backgroundjobs_set_cancellable (s : World) (self_thread : Nat) (key : Nat) (job : Nat) :
    World :=
  if !s.st.running then s else
  let needlock := !pthread_equal self_thread s.st.gui_thread
  let s := if needlock then gdk_threads_enter s else s
  let (j, s) := g_hash_table_lookup s key
  let s :=
    match j with
    | some j => button_pack_start s j.widget job
    | none => s
  if needlock then gdk_threads_leave s else s

/-- Lines 209-236. -/
def _lib_backgroundjobs_progress (s : World) (self_thread : Nat) (key : Nat)
    (progress : GDouble) :
    World :=
  if !s.st.running then s else
  let needlock := !pthread_equal self_thread s.st.gui_thread
  let s := if needlock then gdk_threads_enter s else s
  let (j, s) := g_hash_table_lookup s key
  let s :=
    match j with
    | some j =>
      if progress.ge_one then
        let s := if GTK_IS_WIDGET s j.widget then gtk_container_remove s j.widget else s
        if (gtk_container_get_children s).length == 0 then gtk_widget_hide s else s
      else
        if j.type == 0 then gtk_progress_bar_set_fraction s j.widget progress else s
    | none => s
  if needlock then gdk_threads_leave s else s

/-! ## Calls and reachable states -/

/-- One call of a proxy function, with its arguments; for `create` also the
address the allocator returns. -/
inductive Call where
  | create (type : Int) (message : String) (addr : Nat)
  | destroy (key : Nat)
  | set_cancellable (key : Nat) (job : Nat)
  | progress (key : Nat) (fraction : GDouble)
  deriving DecidableEq, Repr

/-- The world after thread `self_thread` makes the call. -/
def step (s : World) (self_thread : Nat) : Call → World
  | Call.create type message addr => (_lib_backgroundjobs_create s self_thread type message addr).2
  | Call.destroy key => _lib_backgroundjobs_destroy s self_thread key
  | Call.set_cancellable key job => _lib_backgroundjobs_set_cancellable s self_thread key job
  | Call.progress key x => _lib_backgroundjobs_progress s self_thread key x

/-- What the C types and the allocator guarantee about a call: `type` is an
`int`, a key is a `guint`, and `g_malloc` returns a non-null address that is not
allocated at the time of the call. -/
def Call.admissible (s : World) : Call → Bool
  | Call.create type _ addr =>
    decide (-2147483648 ≤ type) && decide (type ≤ 2147483647) && decide (addr ≠ 0) &&
      decide (addr ∉ s.st.heap)
  | Call.destroy key => decide (key < 4294967296)
  | Call.set_cancellable key _ => decide (key < 4294967296)
  | Call.progress key _ => decide (key < 4294967296)

/-- The calls that return at once because the application is not running
(lines 188 and 211). -/
def Call.returns_early (s : World) : Call → Bool
  | Call.set_cancellable _ _ => !s.st.running
  | Call.progress _ _ => !s.st.running
  | _ => false

/-- The two calls on the GDK lock. -/
def Event.is_lock : Event → Bool
  | Event.gdk_threads_enter => true
  | Event.gdk_threads_leave => true
  | _ => false

/-- The application leaves the running state (teardown). -/
def shutdown (s : World) : World :=
  { s with st := { s.st with running := false } }

/-- The worlds that arise from `gui_init` in a running application by admissible
calls from any threads that stay within defined behaviour, the application
possibly shutting down in between. -/
inductive Reachable : World → Prop where
  | init (gui_thread : Nat) : Reachable (gui_init true gui_thread)
  | call {s : World} (self_thread : Nat) (c : Call) :
      Reachable s → c.admissible s = true → (step s self_thread c).st.undefined = false →
      Reachable (step s self_thread c)
  | shutdown {s : World} : Reachable s → Reachable (shutdown s)

/-- How a row of the job box after a call other than `create` relates to the row
it comes from: the same event box, and the bar either untouched or, if the row
has one, set to a fraction from zero on and below one. -/
def RowStep (r r' : Row) : Prop :=
  r'.widget = r.widget ∧
    (r'.progressbar = r.progressbar ∨
      (r.progressbar.isSome = true ∧ ∃ q : ℚ, 0 ≤ q ∧ q < 1 ∧ r'.progressbar = some q))

/-- Widget identities in use are below `next_widget`, and a record in the table
has `type == 0` exactly when its row, while in the job box, has a progress bar. -/
def WidgetInv (s : World) : Prop :=
  (∀ e ∈ s.st.jobs, e.2.widget < s.st.next_widget) ∧
  (∀ r ∈ s.st.jobbox, r.widget < s.st.next_widget) ∧
  (∀ e ∈ s.st.jobs, ∀ r ∈ s.st.jobbox, r.widget = e.2.widget →
    (e.2.type = 0 ↔ r.progressbar.isSome = true))

/-- The job box is shown exactly when it has a row. -/
def VisibleInv (s : World) : Prop :=
  s.st.jobbox_visible = true ↔ s.st.jobbox ≠ []

/-- A running application (GUI thread 0) in which worker thread 7 has created the
determinate job "export"; the allocator put its record at address 4096, so its
handle is 4096. -/
def job_created : World := step (gui_init true 0) 7 (Call.create 0 "export" 4096)

/-! ## Effects of the calls -/

theorem table_lookup_eq_none_iff (t : List (Nat × dt_bgjob_t)) (key : Nat) :
    table_lookup t key = none ↔ ∀ e ∈ t, e.1 ≠ key := by
  simp [table_lookup, List.find?_eq_none]

theorem table_lookup_filter_ne (t : List (Nat × dt_bgjob_t)) (key : Nat) :
    table_lookup (t.filter (fun e => e.1 != key)) key = none := by
  rw [table_lookup_eq_none_iff]
  intro e he
  simpa using (List.mem_filter.mp he).2

theorem destroy_lookup_none (s : World) (t key : Nat) :
    table_lookup (_lib_backgroundjobs_destroy s t key).st.jobs key = none := by
  unfold _lib_backgroundjobs_destroy
  cases hj : table_lookup s.st.jobs key with
  | none =>
    by_cases ht : pthread_equal t s.st.gui_thread = true <;>
    simp [ht, hj, g_hash_table_lookup, gdk_threads_enter, gdk_threads_leave, World.log]
  | some j =>
    by_cases ht : pthread_equal t s.st.gui_thread = true <;>
    simp [ht, hj, g_hash_table_lookup, gdk_threads_enter, gdk_threads_leave, World.log,
      g_hash_table_remove, GTK_IS_WIDGET, gtk_container_remove, gtk_container_get_children,
      gtk_widget_hide, g_free, apply_ite World.st, apply_ite State.jobs, table_lookup_filter_ne]

theorem destroy_st_of_lookup_none (s : World) (t key : Nat)
    (h : table_lookup s.st.jobs key = none) : (_lib_backgroundjobs_destroy s t key).st = s.st := by
  unfold _lib_backgroundjobs_destroy
  by_cases ht : pthread_equal t s.st.gui_thread = true <;>
  simp [ht, h, g_hash_table_lookup, gdk_threads_enter, gdk_threads_leave, World.log]

theorem set_cancellable_st_of_lookup_none (s : World) (t key job : Nat)
    (h : table_lookup s.st.jobs key = none) :
    (_lib_backgroundjobs_set_cancellable s t key job).st = s.st := by
  unfold _lib_backgroundjobs_set_cancellable
  by_cases hr : s.st.running = true <;>
  by_cases ht : pthread_equal t s.st.gui_thread = true <;>
  simp [hr, ht, h, g_hash_table_lookup, gdk_threads_enter, gdk_threads_leave, World.log]

theorem progress_st_of_lookup_none (s : World) (t key : Nat) (x : GDouble)
    (h : table_lookup s.st.jobs key = none) :
    (_lib_backgroundjobs_progress s t key x).st = s.st := by
  unfold _lib_backgroundjobs_progress
  by_cases hr : s.st.running = true <;>
  by_cases ht : pthread_equal t s.st.gui_thread = true <;>
  simp [hr, ht, h, g_hash_table_lookup, gdk_threads_enter, gdk_threads_leave, World.log]

theorem mem_reorder_child {l : List Row} {w position : Nat} {r : Row}
    (h : r ∈ reorder_child l w position) : r ∈ l := by
  unfold reorder_child at h
  split at h
  · exact h
  · rename_i r0 hfind
    simp only [List.append_assoc, List.mem_append, List.mem_singleton] at h
    rcases h with h | h | h
    · exact List.mem_of_mem_eraseP (List.mem_of_mem_take h)
    · exact h ▸ List.mem_of_find?_eq_some hfind
    · exact List.mem_of_mem_eraseP (List.mem_of_mem_drop h)

theorem RowStep.rfl (r : Row) : RowStep r r := ⟨Eq.refl _, Or.inl (Eq.refl _)⟩

theorem destroy_effect (s : World) (t key : Nat) :
    let s' := _lib_backgroundjobs_destroy s t key
    (∀ e ∈ s'.st.jobs, e ∈ s.st.jobs) ∧ s'.st.next_widget = s.st.next_widget ∧
      (∀ r' ∈ s'.st.jobbox, r' ∈ s.st.jobbox) ∧
      (∀ e ∈ s'.trace, e ∈ s.trace ∨ ∀ w x, e ≠ Event.gtk_progress_bar_set_fraction w x) := by
  simp only [_lib_backgroundjobs_destroy]
  by_cases ht : pthread_equal t s.st.gui_thread = true <;>
  cases hj : table_lookup s.st.jobs key <;>
  simp only [ht, hj, g_hash_table_lookup, World.log, Bool.not_true, Bool.not_false, if_true,
    if_false, Bool.false_eq_true, gdk_threads_enter] <;>
  (try split_ifs) <;>
  simp +contextual [gdk_threads_enter, gdk_threads_leave, World.log, g_hash_table_remove,
    gtk_container_remove, gtk_widget_hide, g_free, or_imp, forall_and]


theorem set_cancellable_effect (s : World) (t key job : Nat) :
    let s' := _lib_backgroundjobs_set_cancellable s t key job
    s'.st.jobs = s.st.jobs ∧ s'.st.next_widget = s.st.next_widget ∧
      (∀ r' ∈ s'.st.jobbox, ∃ r ∈ s.st.jobbox, r'.widget = r.widget ∧
        r'.progressbar = r.progressbar) ∧
      (∀ e ∈ s'.trace, e ∈ s.trace ∨ ∀ w x, e ≠ Event.gtk_progress_bar_set_fraction w x) := by
  simp only [_lib_backgroundjobs_set_cancellable]
  by_cases hr : s.st.running = true <;>
  by_cases ht : pthread_equal t s.st.gui_thread = true <;>
  cases hj : table_lookup s.st.jobs key <;>
  simp only [hr, ht, hj, g_hash_table_lookup, World.log, Bool.not_true, Bool.not_false, if_true,
    if_false, Bool.false_eq_true, gdk_threads_enter] <;>
  simp +contextual [gdk_threads_enter, gdk_threads_leave, World.log, button_pack_start,
    or_imp, forall_and]
  all_goals
    intro a ha
    refine ⟨a, ha, ?_⟩
    first
    | exact ⟨rfl, rfl⟩
    | (split <;> simp_all)

theorem GDouble.in_range_bounds {x : GDouble} {q : ℚ} (h : x.in_range = some q)
    (hx : x.ge_one = false) : x = GDouble.finite q ∧ 0 ≤ q ∧ q < 1 := by
  cases x with
  | finite p =>
    simp only [GDouble.in_range] at h
    split at h
    · rename_i hp
      have hpq : p = q := Option.some.inj h
      subst hpq
      simp only [GDouble.ge_one, decide_eq_false_iff_not, not_le] at hx
      exact ⟨Eq.refl _, hp.1, hx⟩
    · exact absurd h (by simp)
  | pos_inf => simp [GDouble.in_range] at h
  | neg_inf => simp [GDouble.in_range] at h
  | nan => simp [GDouble.in_range] at h

theorem progress_effect (s : World) (t key : Nat) (x : GDouble) :
    let s' := _lib_backgroundjobs_progress s t key x
    s'.st.jobs = s.st.jobs ∧ s'.st.next_widget = s.st.next_widget ∧
      (∀ r' ∈ s'.st.jobbox, ∃ r ∈ s.st.jobbox, RowStep r r') ∧
      (∀ e ∈ s'.trace, e ∈ s.trace ∨
        ∀ w y, e = Event.gtk_progress_bar_set_fraction w y → y.ge_one = false) := by
  simp only [_lib_backgroundjobs_progress]
  by_cases hr : s.st.running = true <;>
  by_cases ht : pthread_equal t s.st.gui_thread = true <;>
  cases hj : table_lookup s.st.jobs key <;>
  simp only [hr, ht, hj, g_hash_table_lookup, World.log, Bool.not_true, Bool.not_false, if_true,
    if_false, Bool.false_eq_true, gdk_threads_enter] <;>
  (try split_ifs) <;>
  simp +contextual [gdk_threads_enter, gdk_threads_leave, World.log,
    gtk_container_remove, gtk_widget_hide, gtk_progress_bar_set_fraction, or_imp, forall_and]
  all_goals
    first
    | exact fun r hr => ⟨r, hr, RowStep.rfl r⟩
    | exact fun r hr _ => ⟨r, hr, RowStep.rfl r⟩
    | have hx : x.ge_one = false := by simpa using ‹¬x.ge_one = true›
      refine ⟨fun r' h => ?_, Or.inr hx⟩
      cases hq : x.in_range with
      | none =>
        rw [hq] at h
        exact ⟨r', h, RowStep.rfl r'⟩
      | some q =>
        rw [hq] at h
        obtain ⟨r, hr, rfl⟩ := List.mem_map.mp h
        obtain ⟨-, h0, h1⟩ := GDouble.in_range_bounds hq hx
        refine ⟨r, hr, ?_⟩
        split
        · rename_i hw
          refine ⟨hw.symm, ?_⟩
          cases hp : r.progressbar with
          | none => exact Or.inl (by simp)
          | some f => exact Or.inr ⟨by simp, q, h0, h1, by simp⟩
        · exact RowStep.rfl r

theorem create_effect (s : World) (t : Nat) (type : Int) (message : String) (addr : Nat) :
    let s' := (_lib_backgroundjobs_create s t type message addr).2
    let row : Row := { widget := s.st.next_widget, label := message,
                       progressbar := if type == 0 then some 0 else none, buttons := [] }
    let j : dt_bgjob_t := { addr := addr, type := to_uint32 type, widget := s.st.next_widget }
    (∀ e ∈ s'.st.jobs, e ∈ s.st.jobs ∨ e = (g_direct_hash addr, j)) ∧
      s'.st.next_widget = s.st.next_widget + 1 ∧
      (∀ r' ∈ s'.st.jobbox, r' ∈ s.st.jobbox ∨ r' = row) ∧
      (∀ e ∈ s'.trace, e ∈ s.trace ∨ ∀ w x, e ≠ Event.gtk_progress_bar_set_fraction w x) := by
  simp only [_lib_backgroundjobs_create]
  by_cases ht : pthread_equal t s.st.gui_thread = true <;>
  simp +contextual [ht, gdk_threads_enter, gdk_threads_leave, World.log, g_malloc, gtk_event_box_new,
      g_hash_table_insert, gtk_box_pack_start, gtk_box_reorder_child, gtk_widget_show,
      or_imp, forall_and]
  all_goals
    intro r' h
    simpa using mem_reorder_child h


theorem to_uint32_eq_zero_iff (i : Int) (h1 : -2147483648 ≤ i) (h2 : i ≤ 2147483647) :
    to_uint32 i = 0 ↔ i = 0 := by
  unfold to_uint32
  omega

theorem RowStep.isSome {r r' : Row} (h : RowStep r r') :
    r'.progressbar.isSome = r.progressbar.isSome := by
  rcases h with ⟨_, h | ⟨h, q, _, _, hq⟩⟩
  · rw [h]
  · rw [hq, h]; rfl

theorem widgetInv_step (s : World) (t : Nat) (c : Call) (hc : c.admissible s = true)
    (h : WidgetInv s) : WidgetInv (step s t c) := by
  obtain ⟨h1, h2, h3⟩ := h
  cases c with
  | create type message addr =>
    obtain ⟨e1, e2, e3, -⟩ := create_effect s t type message addr
    simp only [Call.admissible, Bool.and_eq_true, decide_eq_true_eq] at hc
    obtain ⟨⟨⟨hlo, hhi⟩, -⟩, -⟩ := hc
    simp only [step]
    refine ⟨?_, ?_, ?_⟩
    · intro e he
      rw [e2]
      rcases e1 e he with h | h
      · exact Nat.lt_succ_of_lt (h1 e h)
      · subst h; exact Nat.lt_succ_self _
    · intro r hr
      rw [e2]
      rcases e3 r hr with h | h
      · exact Nat.lt_succ_of_lt (h2 r h)
      · subst h; exact Nat.lt_succ_self _
    · intro e he r hr hw
      rcases e1 e he with he' | he' <;> rcases e3 r hr with hr' | hr'
      · exact h3 e he' r hr' hw
      · subst hr'
        exact absurd hw (Nat.ne_of_gt (h1 e he'))
      · subst he'
        exact absurd hw (Nat.ne_of_lt (h2 r hr'))
      · subst he' hr'
        simp only [to_uint32_eq_zero_iff type hlo hhi]
        by_cases h0 : type = 0 <;> simp [h0]
  | destroy key =>
    obtain ⟨e1, e2, e3, -⟩ := destroy_effect s t key
    simp only [step]
    refine ⟨fun e he => e2 ▸ h1 e (e1 e he), fun r hr => e2 ▸ h2 r (e3 r hr),
      fun e he r hr hw => h3 e (e1 e he) r (e3 r hr) hw⟩
  | set_cancellable key job =>
    obtain ⟨e1, e2, e3, -⟩ := set_cancellable_effect s t key job
    simp only [step]
    refine ⟨fun e he => ?_, fun r hr => ?_, fun e he r hr hw => ?_⟩
    · rw [e2]; exact h1 e (e1 ▸ he)
    · obtain ⟨r0, hr0, hw, -⟩ := e3 r hr
      rw [e2, hw]; exact h2 r0 hr0
    · obtain ⟨r0, hr0, hw0, hp⟩ := e3 r hr
      rw [hp]
      exact h3 e (e1 ▸ he) r0 hr0 (hw0 ▸ hw)
  | progress key x =>
    obtain ⟨e1, e2, e3, -⟩ := progress_effect s t key x
    simp only [step]
    refine ⟨fun e he => ?_, fun r hr => ?_, fun e he r hr hw => ?_⟩
    · rw [e2]; exact h1 e (e1 ▸ he)
    · obtain ⟨r0, hr0, hw, -⟩ := e3 r hr
      rw [e2, hw]; exact h2 r0 hr0
    · obtain ⟨r0, hr0, hstep⟩ := e3 r hr
      rw [hstep.isSome]
      exact h3 e (e1 ▸ he) r0 hr0 (hstep.1 ▸ hw)

theorem reachable_widgetInv {s : World} (h : Reachable s) : WidgetInv s := by
  induction h with
  | init g => exact ⟨by simp [gui_init], by simp [gui_init], by simp [gui_init]⟩
  | call t c _ hc _ ih => exact widgetInv_step _ t c hc ih
  | shutdown _ ih => exact ih

theorem reorder_child_ne_nil {l : List Row} (w position : Nat) (h : l ≠ []) :
    reorder_child l w position ≠ [] := by
  unfold reorder_child
  split
  · exact h
  · simp

theorem visibleInv_step (s : World) (t : Nat) (c : Call) (h : VisibleInv s) :
    VisibleInv (step s t c) := by
  unfold VisibleInv at h ⊢
  cases c with
  | create type message addr =>
    simp only [step, _lib_backgroundjobs_create]
    by_cases ht : pthread_equal t s.st.gui_thread = true <;>
    simp [ht, gdk_threads_enter, gdk_threads_leave, World.log, g_malloc, gtk_event_box_new,
      g_hash_table_insert, gtk_box_pack_start, gtk_box_reorder_child, gtk_widget_show] <;>
    exact reorder_child_ne_nil _ _ (by simp)
  | destroy key =>
    simp only [step, _lib_backgroundjobs_destroy]
    by_cases ht : pthread_equal t s.st.gui_thread = true <;>
    cases hj : table_lookup s.st.jobs key <;>
    simp only [ht, hj, g_hash_table_lookup, World.log, Bool.not_true, Bool.not_false, if_true,
      if_false, Bool.false_eq_true, gdk_threads_enter] <;>
    (try split_ifs) <;>
    simp_all [gdk_threads_enter, gdk_threads_leave, World.log, g_hash_table_remove,
      gtk_container_remove, gtk_widget_hide, g_free, GTK_IS_WIDGET, gtk_container_get_children]
    all_goals
      rename_i h1 _
      obtain ⟨r, hr, -⟩ := h1
      exact List.ne_nil_of_mem hr
  | set_cancellable key job =>
    simp only [step, _lib_backgroundjobs_set_cancellable]
    by_cases hr : s.st.running = true <;>
    by_cases ht : pthread_equal t s.st.gui_thread = true <;>
    cases hj : table_lookup s.st.jobs key <;>
    simp [hr, ht, hj, g_hash_table_lookup, gdk_threads_enter, gdk_threads_leave, World.log,
      button_pack_start, h]
  | progress key x =>
    simp only [step, _lib_backgroundjobs_progress]
    by_cases hr : s.st.running = true <;>
    by_cases ht : pthread_equal t s.st.gui_thread = true <;>
    cases hj : table_lookup s.st.jobs key <;>
    cases hq : x.in_range <;>
    simp only [hr, ht, hj, g_hash_table_lookup, World.log, Bool.not_true, Bool.not_false, if_true,
      if_false, Bool.false_eq_true, gdk_threads_enter] <;>
    (try split_ifs) <;>
    simp_all [gdk_threads_enter, gdk_threads_leave, World.log, gtk_container_remove,
      gtk_widget_hide, gtk_progress_bar_set_fraction, GTK_IS_WIDGET, gtk_container_get_children]
    all_goals
      rename_i h1 _
      obtain ⟨r, hr, -⟩ := h1
      exact List.ne_nil_of_mem hr

/-- In every reachable world the job box is shown exactly when it has a row. -/
theorem reachable_visible_iff_rows {s : World} (h : Reachable s) :
    s.st.jobbox_visible = true ↔ s.st.jobbox ≠ [] := by
  induction h with
  | init g => simp [gui_init]
  | call t c _ _ _ ih => exact visibleInv_step _ t c ih
  | shutdown _ ih => exact ih

/-- Every fraction with `x >= 1.0` is treated as the fraction one. -/
theorem progress_eq_of_ge (s : World) (t key : Nat) (x : GDouble) (hx : x.ge_one = true) :
    _lib_backgroundjobs_progress s t key x =
      _lib_backgroundjobs_progress s t key (GDouble.finite 1) := by
  have h1 : (GDouble.finite 1).ge_one = true := by simp [GDouble.ge_one]
  simp [_lib_backgroundjobs_progress, hx, h1]

theorem GTK_IS_WIDGET_iff (s : World) (w : Nat) :
    GTK_IS_WIDGET s w = true ↔ w ∈ s.st.jobbox.map Row.widget := by
  simp [GTK_IS_WIDGET]

theorem mem_of_table_lookup {t : List (Nat × dt_bgjob_t)} {key : Nat} {j : dt_bgjob_t}
    (h : table_lookup t key = some j) : ∃ e ∈ t, e.2 = j := by
  unfold table_lookup at h
  cases hf : t.find? (fun e => e.1 == key) with
  | none => simp [hf] at h
  | some e =>
    rw [hf] at h
    exact ⟨e, List.mem_of_find?_eq_some hf, by simpa using h⟩

/-- The state after `progress` with a fraction for which `x >= 1.0` is false, on
a handle of the table whose row is in the job box, in a running application. -/
theorem progress_st_of_not_ge (s : World) (t key : Nat) (x : GDouble) (j : dt_bgjob_t)
    (hrun : s.st.running = true) (hj : table_lookup s.st.jobs key = some j)
    (hrow : GTK_IS_WIDGET s j.widget = true) (hx : x.ge_one = false) :
    (_lib_backgroundjobs_progress s t key x).st =
      if j.type = 0 then
        match x.in_range with
        | some q =>
          { s.st with jobbox := s.st.jobbox.map (fun (r : Row) =>
              if r.widget = j.widget then { r with progressbar := r.progressbar.map (fun _ => q) }
              else r) }
        | none => s.st
      else s.st := by
  unfold _lib_backgroundjobs_progress
  simp only [GTK_IS_WIDGET] at hrow
  by_cases ht : pthread_equal t s.st.gui_thread = true <;>
  by_cases h0 : j.type = 0 <;>
  cases hq : x.in_range <;>
  simp [hrun, ht, hj, hx, h0, hq, hrow, g_hash_table_lookup, gdk_threads_enter,
    gdk_threads_leave, World.log, gtk_progress_bar_set_fraction, GTK_IS_WIDGET]
  all_goals rw [← hrun]

/-- The state after `set_cancellable` on a handle of the table whose row is in
the job box, in a running application. -/
theorem set_cancellable_st_of_live (s : World) (t key job : Nat) (j : dt_bgjob_t)
    (hrun : s.st.running = true) (hj : table_lookup s.st.jobs key = some j)
    (hrow : GTK_IS_WIDGET s j.widget = true) :
    (_lib_backgroundjobs_set_cancellable s t key job).st =
      { s.st with jobbox := s.st.jobbox.map (fun (r : Row) =>
          if r.widget = j.widget then { r with buttons := r.buttons ++ [job] } else r) } := by
  unfold _lib_backgroundjobs_set_cancellable
  simp only [GTK_IS_WIDGET] at hrow
  by_cases ht : pthread_equal t s.st.gui_thread = true <;>
  simp [hrun, ht, hj, hrow, g_hash_table_lookup, gdk_threads_enter, gdk_threads_leave,
    World.log, button_pack_start, GTK_IS_WIDGET]

theorem GDouble.ge_one_of_lt_one {x : GDouble} (h : x.lt_one = true) : x.ge_one = false := by
  cases x with
  | finite q =>
    simp only [GDouble.lt_one, decide_eq_true_eq] at h
    simp only [GDouble.ge_one, decide_eq_false_iff_not, not_le]
    exact h
  | pos_inf => simp [GDouble.lt_one] at h
  | neg_inf => rfl
  | nan => simp [GDouble.lt_one] at h

/-! ## The claims -/

/-- C4: in every world and for every handle, `destroy(h)` absorbs a following
`progress(h, x)`, `set_cancellable(h, c)` or second `destroy(h)`: the program
state after the pair is the state after `destroy(h)` alone, whatever the
fraction, the cancel target, the run-state and the calling threads. -/
theorem destroy_absorbs (s : World) (t t' key job : Nat) (x : GDouble) :
    (_lib_backgroundjobs_progress (_lib_backgroundjobs_destroy s t key) t' key x).st =
        (_lib_backgroundjobs_destroy s t key).st ∧
      (_lib_backgroundjobs_set_cancellable (_lib_backgroundjobs_destroy s t key) t' key job).st =
        (_lib_backgroundjobs_destroy s t key).st ∧
      (_lib_backgroundjobs_destroy (_lib_backgroundjobs_destroy s t key) t' key).st =
        (_lib_backgroundjobs_destroy s t key).st :=
  ⟨progress_st_of_lookup_none _ t' key x (destroy_lookup_none s t key),
    set_cancellable_st_of_lookup_none _ t' key job (destroy_lookup_none s t key),
    destroy_st_of_lookup_none _ t' key (destroy_lookup_none s t key)⟩

/-- C5: for a handle that is not a key of the table, `destroy`, `set_cancellable`
and `progress` (total functions, so they return) leave the whole program state
as it was: the table, every row with its fraction and buttons, and whether the
job box is shown. -/
theorem unknown_handle_noop (s : World) (t key job : Nat) (x : GDouble)
    (h : table_lookup s.st.jobs key = none) :
    (_lib_backgroundjobs_destroy s t key).st = s.st ∧
      (_lib_backgroundjobs_set_cancellable s t key job).st = s.st ∧
      (_lib_backgroundjobs_progress s t key x).st = s.st :=
  ⟨destroy_st_of_lookup_none s t key h, set_cancellable_st_of_lookup_none s t key job h,
    progress_st_of_lookup_none s t key x h⟩

theorem unknown_handle_noop_witness :
    table_lookup job_created.st.jobs 5 = none ∧
      (_lib_backgroundjobs_destroy job_created 7 5).st = job_created.st ∧
      (_lib_backgroundjobs_set_cancellable job_created 7 5 9).st = job_created.st ∧
      (_lib_backgroundjobs_progress job_created 7 5 (GDouble.finite (3 / 2))).st =
        job_created.st :=
  ⟨by decide, unknown_handle_noop job_created 7 5 9 (GDouble.finite (3 / 2)) (by decide)⟩

/-- C7: when the application is not running, `set_cancellable` and `progress`
return the world they were given, for every handle, cancel target, fraction and
thread: the program state is unchanged and the trace has no new entry, so there
was no lookup and the lock was not taken. -/
theorem not_running_noop (s : World) (t key job : Nat) (x : GDouble) (h : s.st.running = false) :
    _lib_backgroundjobs_set_cancellable s t key job = s ∧
      _lib_backgroundjobs_progress s t key x = s := by
  simp [_lib_backgroundjobs_set_cancellable, _lib_backgroundjobs_progress, h]

theorem not_running_noop_witness :
    (shutdown job_created).st.running = false ∧
      _lib_backgroundjobs_set_cancellable (shutdown job_created) 7 4096 9 = shutdown job_created ∧
      _lib_backgroundjobs_progress (shutdown job_created) 7 4096 (GDouble.finite (3 / 2)) =
        shutdown job_created :=
  ⟨rfl, not_running_noop (shutdown job_created) 7 4096 9 (GDouble.finite (3 / 2)) rfl⟩

/-- C9: every call extends the trace by a `body` without lock calls that is
bracketed by exactly one `gdk_threads_enter` and one `gdk_threads_leave` when the
caller is not the GUI thread and the call does not return early; when the caller
is the GUI thread or the call returns early, no lock call is recorded at all.
An early return records nothing, and a call that records nothing changes
nothing. -/
theorem lock_balanced (s : World) (self_thread : Nat) (c : Call) :
    ∃ body : List Event, (∀ e ∈ body, e.is_lock = false) ∧
      (step s self_thread c).trace = s.trace ++
        (if pthread_equal self_thread s.st.gui_thread || c.returns_early s then body
         else [Event.gdk_threads_enter] ++ body ++ [Event.gdk_threads_leave]) ∧
      (c.returns_early s = true → body = []) ∧
      (body = [] → (step s self_thread c).st = s.st) := by
  refine ⟨if pthread_equal self_thread s.st.gui_thread || c.returns_early s
      then (step s self_thread c).trace.drop s.trace.length
      else ((step s self_thread c).trace.drop (s.trace.length + 1)).dropLast, ?_⟩
  cases c with
  | create type message addr =>
    simp only [step, _lib_backgroundjobs_create, Call.returns_early]
    by_cases ht : pthread_equal self_thread s.st.gui_thread = true <;>
    simp [ht, gdk_threads_enter, gdk_threads_leave, World.log, g_malloc, gtk_event_box_new,
      g_hash_table_insert, gtk_box_pack_start, gtk_box_reorder_child, gtk_widget_show,
      Event.is_lock]
  | destroy key =>
    simp only [step, _lib_backgroundjobs_destroy, Call.returns_early]
    by_cases ht : pthread_equal self_thread s.st.gui_thread = true <;>
    cases hj : table_lookup s.st.jobs key <;>
    simp only [ht, hj, g_hash_table_lookup, World.log, Bool.not_true, Bool.not_false, if_true,
      if_false, Bool.false_eq_true, Bool.or_false, Bool.false_or, Bool.true_or,
      gdk_threads_enter] <;>
    (try split_ifs) <;>
    simp [gdk_threads_enter, gdk_threads_leave, World.log, g_hash_table_remove,
      gtk_container_remove, gtk_widget_hide, g_free, Event.is_lock]
  | set_cancellable key job =>
    simp only [step, _lib_backgroundjobs_set_cancellable, Call.returns_early]
    by_cases hr : s.st.running = true <;>
    by_cases ht : pthread_equal self_thread s.st.gui_thread = true <;>
    cases hj : table_lookup s.st.jobs key <;>
    simp [hr, ht, hj, g_hash_table_lookup, gdk_threads_enter, gdk_threads_leave, World.log,
      button_pack_start, Event.is_lock]
  | progress key x =>
    simp only [step, _lib_backgroundjobs_progress, Call.returns_early]
    by_cases hr : s.st.running = true <;>
    by_cases ht : pthread_equal self_thread s.st.gui_thread = true <;>
    cases hj : table_lookup s.st.jobs key <;>
    simp only [hr, ht, hj, g_hash_table_lookup, World.log, Bool.not_true, Bool.not_false, if_true,
      if_false, Bool.false_eq_true, Bool.or_false, Bool.false_or, Bool.true_or, Bool.or_true,
      gdk_threads_enter] <;>
    (try split_ifs) <;>
    simp [gdk_threads_enter, gdk_threads_leave, World.log, gtk_container_remove,
      gtk_widget_hide, gtk_progress_bar_set_fraction, Event.is_lock]


/-- C1 at a failing input: in `job_created` (running, handle 4096 in the table)
`progress(4096, x)` with `x = 1` and with `x = 3/2` takes the row out and hides
the job box, but the record stays in the table and stays allocated, whereas
`destroy(4096)` removes and frees it; the two resulting states differ, and a
later `set_cancellable(4096, 9)` still finds the record and reaches for the row
that is gone. -/
theorem progress_complete_keeps_record :
    job_created.st.running = true ∧
      table_lookup job_created.st.jobs 4096 = some { addr := 4096, type := 0, widget := 0 } ∧
      (_lib_backgroundjobs_progress job_created 7 4096 (GDouble.finite 1)).st =
        { job_created.st with jobbox := [], jobbox_visible := false } ∧
      (_lib_backgroundjobs_progress job_created 7 4096 (GDouble.finite (3 / 2))).st =
        { job_created.st with jobbox := [], jobbox_visible := false } ∧
      (_lib_backgroundjobs_destroy job_created 7 4096).st =
        { job_created.st with jobbox := [], jobbox_visible := false, jobs := [], heap := [] } ∧
      (_lib_backgroundjobs_progress job_created 7 4096 (GDouble.finite 1)).st ≠
        (_lib_backgroundjobs_destroy job_created 7 4096).st ∧
      Event.button_pack_start 0 9 ∈
        (_lib_backgroundjobs_set_cancellable
          (_lib_backgroundjobs_progress job_created 7 4096 (GDouble.finite 1)) 7 4096 9).trace := by
  rw [progress_eq_of_ge job_created 7 4096 (GDouble.finite (3 / 2))
    (by simp only [GDouble.ge_one, decide_eq_true_eq]; norm_num)]
  decide

/-- C2 at a failing input: the world after `create` and `progress(4096, 1)` is
reachable and running, its table still holds the record of handle 4096, and its
job box is hidden. -/
theorem panel_hidden_with_job_registered :
    Reachable (step job_created 7 (Call.progress 4096 (GDouble.finite 1))) ∧
      (step job_created 7 (Call.progress 4096 (GDouble.finite 1))).st.running = true ∧
      (step job_created 7 (Call.progress 4096 (GDouble.finite 1))).st.jobs =
        [(4096, { addr := 4096, type := 0, widget := 0 })] ∧
      (step job_created 7 (Call.progress 4096 (GDouble.finite 1))).st.jobbox_visible = false :=
  ⟨Reachable.call 7 _ (Reachable.call 7 _ (Reachable.init 0) (by decide) (by decide))
      (by decide) (by decide),
    by decide, by decide, by decide⟩

/-- C3 at a failing input: with the first record at address 4096 still
allocated, the allocator returns the different address 4096 + 2^32 for a second
record; both `create` calls return the handle 4096, the table keeps only the
second record, and both rows are in the job box.  After `destroy(4096)` the
table is empty while the first row is still displayed. -/
theorem create_handles_collide :
    (Call.create 1 "import" 4294971392).admissible job_created = true ∧
      (_lib_backgroundjobs_create (gui_init true 0) 7 0 "export" 4096).1 = 4096 ∧
      (_lib_backgroundjobs_create job_created 8 1 "import" 4294971392).1 = 4096 ∧
      (_lib_backgroundjobs_create job_created 8 1 "import" 4294971392).2.st.heap =
        [4294971392, 4096] ∧
      (_lib_backgroundjobs_create job_created 8 1 "import" 4294971392).2.st.jobs =
        [(4096, { addr := 4294971392, type := 1, widget := 1 })] ∧
      (_lib_backgroundjobs_create job_created 8 1 "import" 4294971392).2.st.jobbox.map Row.widget =
        [0, 1] ∧
      (_lib_backgroundjobs_destroy
        (_lib_backgroundjobs_create job_created 8 1 "import" 4294971392).2 8 4096).st.jobs = [] ∧
      (_lib_backgroundjobs_destroy
        (_lib_backgroundjobs_create job_created 8 1 "import" 4294971392).2 8 4096).st.jobbox.map
          Row.widget = [0] := by
  decide


/-- C6, counterexample: in `job_created` the handle 4096 is live and its job is
determinate; the fraction -1 is below 1.0, yet after `progress(4096, -1)` the
bar of the row shows 0 as before, not -1. -/
theorem negative_fraction_not_shown :
    Reachable job_created ∧ job_created.st.running = true ∧
      table_lookup job_created.st.jobs 4096 = some { addr := 4096, type := 0, widget := 0 } ∧
      GTK_IS_WIDGET job_created 0 = true ∧
      (GDouble.finite (-1)).lt_one = true ∧
      (_lib_backgroundjobs_progress job_created 7 4096 (GDouble.finite (-1))).st.jobbox.map
        Row.progressbar = [some 0] ∧
      (0 : ℚ) ≠ -1 :=
  ⟨Reachable.call 7 _ (Reachable.init 0) (by decide) (by decide), by decide, by decide,
    by decide, by decide, by decide, by decide⟩

/-- C6 as amended: in a reachable running world let `h` be a live handle: the
table has the record `j` for it and the row of `j` is in the job box.  For a
fraction `x < 1.0`, `progress(h, x)` keeps the record in the table and the row
in the job box, keeps the rows in their order and leaves every row of another
job as it was.  If the job is determinate (`type == 0`) and `0 <= x`, the bar of
its row then shows `x`; if the job is indeterminate the program state does not
change at all. -/
theorem progress_in_range_sets_fraction (s : World) (t key : Nat) (x : GDouble)
    (j : dt_bgjob_t) (hs : Reachable s) (hrun : s.st.running = true)
    (hj : table_lookup s.st.jobs key = some j) (hrow : GTK_IS_WIDGET s j.widget = true)
    (hx : x.lt_one = true) :
    table_lookup (_lib_backgroundjobs_progress s t key x).st.jobs key = some j ∧
      GTK_IS_WIDGET (_lib_backgroundjobs_progress s t key x) j.widget = true ∧
      (_lib_backgroundjobs_progress s t key x).st.jobbox.map Row.widget =
        s.st.jobbox.map Row.widget ∧
      (∀ (i : Nat) (r : Row), s.st.jobbox[i]? = some r → r.widget ≠ j.widget →
        (_lib_backgroundjobs_progress s t key x).st.jobbox[i]? = some r) ∧
      (j.type = 0 → ∀ q : ℚ, x = GDouble.finite q → 0 ≤ q →
        ∀ r ∈ (_lib_backgroundjobs_progress s t key x).st.jobbox,
          r.widget = j.widget → r.progressbar = some q) ∧
      (j.type ≠ 0 → (_lib_backgroundjobs_progress s t key x).st = s.st) := by
  have hge : x.ge_one = false := GDouble.ge_one_of_lt_one hx
  have hst := progress_st_of_not_ge s t key x j hrun hj hrow hge
  have hwid : (_lib_backgroundjobs_progress s t key x).st.jobbox.map Row.widget =
      s.st.jobbox.map Row.widget := by
    rw [hst]
    split
    · split
      · simp only [List.map_map]
        refine List.map_congr_left (fun r _ => ?_)
        simp only [Function.comp]
        split <;> rfl
      · rfl
    · rfl
  refine ⟨?_, ?_, hwid, ?_, ?_, ?_⟩
  · rw [hst]; split
    · split <;> exact hj
    · exact hj
  · rw [GTK_IS_WIDGET_iff] at hrow ⊢
    rw [hwid]; exact hrow
  · intro i r hi hw
    rw [hst]
    split
    · split
      · simp [List.getElem?_map, hi, hw]
      · exact hi
    · exact hi
  · intro h0 q hxq hq0 r' hr' hw
    subst hxq
    have hq1 : q < 1 := by simpa [GDouble.lt_one] using hx
    have hin : (GDouble.finite q).in_range = some q := by
      simp [GDouble.in_range, hq0, le_of_lt hq1]
    rw [hst, if_pos h0, hin] at hr'
    obtain ⟨r, hr, rfl⟩ := List.mem_map.mp hr'
    obtain ⟨e, he, hej⟩ := mem_of_table_lookup hj
    by_cases hrw : r.widget = j.widget
    · have hbar : r.progressbar.isSome = true :=
        ((reachable_widgetInv hs).2.2 e he r hr (hej ▸ hrw)).mp (hej ▸ h0)
      obtain ⟨f, hf⟩ := Option.isSome_iff_exists.mp hbar
      simp [hrw, hf]
    · simp [hrw] at hw
  · intro h0
    rw [hst, if_neg h0]

theorem progress_in_range_sets_fraction_witness :
    Reachable job_created ∧
      (∀ r ∈ (_lib_backgroundjobs_progress job_created 7 4096 (GDouble.finite (1 / 2))).st.jobbox,
        r.widget = 0 → r.progressbar = some (1 / 2)) :=
  ⟨Reachable.call 7 _ (Reachable.init 0) (by decide) (by decide),
    (progress_in_range_sets_fraction job_created 7 4096 (GDouble.finite (1 / 2))
      { addr := 4096, type := 0, widget := 0 }
      (Reachable.call 7 _ (Reachable.init 0) (by decide) (by decide)) (by decide) (by decide)
      (by decide) (by simp only [GDouble.lt_one, decide_eq_true_eq]; norm_num)).2.2.2.2.1
      rfl (1 / 2) rfl (by norm_num)⟩

/-- C8, counterexample: after two `set_cancellable` calls on the live handle 4096
the row of the job carries two cancel buttons, not at most one. -/
theorem set_cancellable_twice_two_buttons :
    ¬ ∀ r ∈ (_lib_backgroundjobs_set_cancellable
        (_lib_backgroundjobs_set_cancellable job_created 7 4096 9) 7 4096 11).st.jobbox,
      r.buttons.length ≤ 1 := by
  decide

/-- C8 as amended: in a running world let `h` be a live handle: the table has the
record `j` for it and the row of `j` is in the job box.  Two `set_cancellable`
calls on `h` add two cancel buttons to that row, the first connected to `c1` and
the second to `c2`, after the buttons the row had; nothing else in the program
state changes. -/
theorem set_cancellable_twice_appends_both (s : World) (t1 t2 key c1 c2 : Nat) (j : dt_bgjob_t)
    (hrun : s.st.running = true) (hj : table_lookup s.st.jobs key = some j)
    (hrow : GTK_IS_WIDGET s j.widget = true) :
    (_lib_backgroundjobs_set_cancellable
        (_lib_backgroundjobs_set_cancellable s t1 key c1) t2 key c2).st =
      { s.st with jobbox := s.st.jobbox.map (fun (r : Row) =>
          if r.widget = j.widget then { r with buttons := r.buttons ++ [c1, c2] } else r) } := by
  have h1 := set_cancellable_st_of_live s t1 key c1 j hrun hj hrow
  have hrun' : (_lib_backgroundjobs_set_cancellable s t1 key c1).st.running = true := by
    rw [h1]; exact hrun
  have hj' : table_lookup (_lib_backgroundjobs_set_cancellable s t1 key c1).st.jobs key =
      some j := by
    rw [h1]; exact hj
  have hrow' : GTK_IS_WIDGET (_lib_backgroundjobs_set_cancellable s t1 key c1) j.widget =
      true := by
    rw [GTK_IS_WIDGET_iff] at hrow ⊢
    rw [h1]
    simp only [List.map_map]
    have hmap : List.map (Row.widget ∘ fun (r : Row) =>
        if r.widget = j.widget then { r with buttons := r.buttons ++ [c1] } else r) s.st.jobbox =
        List.map Row.widget s.st.jobbox := by
      refine List.map_congr_left (fun r _ => ?_)
      simp only [Function.comp]
      split <;> rfl
    rw [hmap]; exact hrow
  rw [set_cancellable_st_of_live _ t2 key c2 j hrun' hj' hrow', h1]
  simp only [List.map_map]
  congr 1
  refine List.map_congr_left (fun r _ => ?_)
  simp only [Function.comp]
  by_cases hw : r.widget = j.widget <;> simp [hw]

theorem set_cancellable_twice_appends_both_witness :
    (_lib_backgroundjobs_set_cancellable
        (_lib_backgroundjobs_set_cancellable job_created 7 4096 9) 0 4096 11).st =
      { job_created.st with jobbox := job_created.st.jobbox.map (fun (r : Row) =>
          if r.widget = 0 then { r with buttons := r.buttons ++ [9, 11] } else r) } :=
  set_cancellable_twice_appends_both job_created 7 0 4096 9 11
    { addr := 4096, type := 0, widget := 0 } (by decide) (by decide) (by decide)

end Backgroundjobs
